import Mathlib

/-!
Verification development for the menu-data caching and synchronization layer of
the `react-native-app` repository (Little Lemon).  The definitions below are a
shallow embedding of the JavaScript source:

* `utils/database` (src/unnamed/part_000 and part_005): `initDatabase`,
  `hasMenuData`, `saveMenuItems`, `getMenuItems`, `getCategories`,
  `filterMenuItems`, built on expo-sqlite's WebSQL-style `db.transaction` /
  `tx.executeSql` API;
* the Home screen (src/unnamed/part_004): `initializeAndLoadData`,
  `fetchMenuDataFromAPI` and the filtering effect (`filterItems`) with its
  in-memory fallback scan;
* the debounce utility `utils/debounce`, whose source file is not part of the
  repository snapshot and is therefore modelled from the specification.

The persistent store is modelled as the list of rows of the `menu` table, in
rowid (insertion) order.  Statement-level and transaction-level failures of the
storage engine are modelled by explicit fault oracles, and the WebSQL
processing model is embedded faithfully: a statement error whose error
callback returns `false` (which is what every statement error callback in
`utils/database` does) is a *handled* error — the transaction continues with
the next statement and commits at the end.
-/

namespace LittleLemon

/-- ASCII lowercasing of a character.  SQLite's default `LIKE` is
case-insensitive for the ASCII letters A–Z only, which is exactly this map. -/
def lowerAscii (c : Char) : Char :=
  if 'A' ≤ c ∧ c ≤ 'Z' then Char.ofNat (c.toNat + 32) else c

/-- Does `f` hold of some suffix of the list (including the list itself and
the empty suffix)?  Helper used to interpret the `%` wildcard and substring
search. -/
def anySuffix (f : List Char → Bool) : List Char → Bool
  | [] => f []
  | c :: t => f (c :: t) || anySuffix f t

/-- Case-insensitive (ASCII) prefix test on character lists. -/
def isPrefixCI : List Char → List Char → Bool
  | [], _ => true
  | _ :: _, [] => false
  | a :: as, b :: bs => (lowerAscii a == lowerAscii b) && isPrefixCI as bs

/-- Case-insensitive (ASCII) substring test: `needle` occurs contiguously
somewhere in `hay`. -/
def containsCI (needle hay : List Char) : Bool :=
  anySuffix (isPrefixCI needle) hay

/-- SQLite `LIKE` pattern matching over the whole subject string:
`%` matches any (possibly empty) sequence of characters, `_` matches exactly
one character, and ordinary characters match ASCII-case-insensitively.
This is the semantics SQLite applies to `name LIKE ?` in `filterMenuItems`. -/
def likeMatch : List Char → List Char → Bool
  | [], s => s.isEmpty
  | q :: ps, s =>
    if q = '%' then anySuffix (likeMatch ps) s
    else
      match s with
      | [] => false
      | c :: t => ((q == '_') || lowerAscii q == lowerAscii c) && likeMatch ps t

/-- Blank test: `s.trim() === ''` in JavaScript, i.e. every character of the
string is whitespace. -/
def isBlank (s : String) : Bool :=
  s.data.all (fun c => c.isWhitespace)

/-- Row of the `menu` table / processed menu item.  The table schema is
`id INTEGER PRIMARY KEY, name TEXT NOT NULL, description TEXT,
price REAL NOT NULL, image TEXT, category TEXT`; nullable columns are
`Option`s, and `REAL` is modelled by `Rat`. -/
structure MenuItem where
  id : Int
  name : Option String
  description : Option String
  price : Option Rat
  image : Option String
  category : Option String
deriving DecidableEq

/-- Raw record of the remote payload's `menu` array, before normalization in
`fetchMenuDataFromAPI`.  Every field may be absent. -/
structure RawItem where
  id : Option Int
  name : Option String
  description : Option String
  price : Option Rat
  image : Option String
  category : Option String
deriving DecidableEq

/-- SQL statements issued by `saveMenuItems` inside its single transaction:
`DELETE FROM menu;` followed by one
`INSERT INTO menu (id, name, description, price, image, category) VALUES ...`
per item. -/
inductive Stmt where
  | del : Stmt
  | ins : MenuItem → Stmt

/-- Intrinsic effect of one statement on the table: `DELETE` empties it; an
`INSERT` appends the row unless it violates a schema constraint
(`name`/`price` `NOT NULL`, or the `id` `PRIMARY KEY` already present), in
which case the statement errors (`none`). -/
def execStmt (tbl : List MenuItem) : Stmt → Option (List MenuItem)
  | .del => some []
  | .ins it =>
    if it.name == none || it.price == none || tbl.any (fun r => r.id == it.id) then none
    else some (tbl ++ [it])

/-- WebSQL transaction processing model for a queue of statements, with an
extrinsic fault oracle (`faults k` makes the `k`-th statement fail, e.g. an
I/O error).  Every statement error callback in `utils/database` returns
`false`, so per the WebSQL processing model an errored statement is *handled*:
the transaction moves on to the next statement instead of rolling back.
The result is the final table together with a flag recording whether any
statement errored (in which case `saveMenuItems` has already called
`reject`). -/
def runStmts (faults : Nat → Bool) : Nat → List MenuItem → List Stmt → List MenuItem × Bool
  | _, tbl, [] => (tbl, false)
  | k, tbl, st :: rest =>
    match (if faults k then none else execStmt tbl st) with
    | none => ((runStmts faults (k + 1) tbl rest).1, true)
    | some tbl' => runStmts faults (k + 1) tbl' rest

/-- Outcome of `saveMenuItems`: whether the returned promise resolved
(`resolved = false` means it rejected with the storage error), and the
persisted table contents afterwards. -/
structure SaveResult where
  resolved : Bool
  store : List MenuItem
deriving DecidableEq

/-- Shallow embedding of `saveMenuItems` (src/unnamed/part_005 lines 131–182,
identically src/unnamed/part_000 lines 79–130): one `db.transaction` that
clears the table (`DELETE FROM menu;`) and inserts every item.  A
transaction-level fault (`txnFault`, e.g. commit failure) rolls the whole
transaction back, leaving the store unchanged.  A statement-level fault calls
`reject` but — because the statement error callback returns `false` — the
transaction continues and commits whatever the remaining statements produced. -/
def saveMenuItems (faults : Nat → Bool) (txnFault : Bool)
    (store : List MenuItem) (menuItems : List MenuItem) : SaveResult :=
  if txnFault then ⟨false, store⟩
  else
    let r := runStmts faults 0 store (Stmt.del :: menuItems.map Stmt.ins)
    ⟨!r.2, r.1⟩

/-- Shallow embedding of `getMenuItems` (`SELECT * FROM menu;`): returns every
persisted row. -/
def getMenuItems (store : List MenuItem) : List MenuItem :=
  store

/-- Fault oracle under which no statement fails extrinsically. -/
def noFaults : Nat → Bool := fun _ => false

/-- Category condition of `filterMenuItems` built for non-empty `categories`:
`category IN (?, …)`.  SQL `IN` on a `NULL` category yields `NULL`, i.e. the
row is not selected. -/
def catCond (categories : List String) (it : MenuItem) : Bool :=
  match it.category with
  | some c => categories.contains c
  | none => false

/-- Search condition of `filterMenuItems` built for non-blank `searchText`:
`name LIKE ?` with parameter the pattern `%searchText%`.  `LIKE` on a `NULL`
name yields `NULL`, i.e. the row is not selected. -/
def likeCond (searchText : String) (it : MenuItem) : Bool :=
  match it.name with
  | some n => likeMatch ('%' :: (searchText.data ++ ['%'])) n.data
  | none => false

/-- Lexicographic order on character lists by code point, which is the order
SQLite's default BINARY collation induces on UTF-8 encoded text. -/
def listLe : List Char → List Char → Bool
  | [], _ => true
  | _ :: _, [] => false
  | a :: as, b :: bs =>
    if a.toNat < b.toNat then true
    else if b.toNat < a.toNat then false
    else listLe as bs

theorem listLe_total : ∀ x y : List Char, listLe x y = true ∨ listLe y x = true
  | [], _ => Or.inl rfl
  | _ :: _, [] => Or.inr rfl
  | a :: as, b :: bs => by
    simp only [listLe]
    rcases Nat.lt_trichotomy a.toNat b.toNat with h | h | h
    · left; simp [h]
    · have h1 : ¬a.toNat < b.toNat := by omega
      have h2 : ¬b.toNat < a.toNat := by omega
      simpa [h1, h2] using listLe_total as bs
    · right; simp [h]

theorem listLe_trans : ∀ x y z : List Char,
    listLe x y = true → listLe y z = true → listLe x z = true
  | [], _, _, _, _ => rfl
  | _ :: _, [], _, hxy, _ => by simp [listLe] at hxy
  | _ :: _, _ :: _, [], _, hyz => by simp [listLe] at hyz
  | a :: as, b :: bs, c :: cs, hxy, hyz => by
    simp only [listLe] at hxy hyz ⊢
    rcases Nat.lt_trichotomy a.toNat b.toNat with hab | hab | hab
    · rcases Nat.lt_trichotomy b.toNat c.toNat with hbc | hbc | hbc
      · rw [if_pos (by omega)]
      · rw [if_pos (by omega)]
      · rw [if_neg (by omega), if_pos (by omega)] at hyz
        simp at hyz
    · rcases Nat.lt_trichotomy b.toNat c.toNat with hbc | hbc | hbc
      · rw [if_pos (by omega)]
      · rw [if_neg (by omega), if_neg (by omega)] at hxy hyz ⊢
        exact listLe_trans as bs cs hxy hyz
      · rw [if_neg (by omega), if_pos (by omega)] at hyz
        simp at hyz
    · rw [if_neg (by omega), if_pos (by omega)] at hxy
      simp at hxy

/-- Ordering key of `ORDER BY name` (ascending, `NULL`s first, text compared
by SQLite's default BINARY byte order). -/
def nameKeyLe : Option String → Option String → Bool
  | none, _ => true
  | some _, none => false
  | some x, some y => listLe x.data y.data

theorem nameKeyLe_total : ∀ x y : Option String, nameKeyLe x y = true ∨ nameKeyLe y x = true
  | none, _ => Or.inl rfl
  | some _, none => Or.inr rfl
  | some x, some y => listLe_total x.data y.data

theorem nameKeyLe_trans : ∀ x y z : Option String,
    nameKeyLe x y = true → nameKeyLe y z = true → nameKeyLe x z = true
  | none, _, _, _, _ => rfl
  | some _, none, _, h, _ => by simp [nameKeyLe] at h
  | some _, some _, none, _, h => by simp [nameKeyLe] at h
  | some x, some y, some z, h1, h2 => listLe_trans x.data y.data z.data h1 h2

/-- Row ordering used for `ORDER BY name`. -/
def nameLe (a b : MenuItem) : Prop :=
  nameKeyLe a.name b.name = true

instance : DecidableRel nameLe := fun a b =>
  inferInstanceAs (Decidable (nameKeyLe a.name b.name = true))

instance : IsTotal MenuItem nameLe where
  total a b := nameKeyLe_total a.name b.name

instance : IsTrans MenuItem nameLe where
  trans a b c hab hbc := nameKeyLe_trans a.name b.name c.name hab hbc

instance {ε α : Type} [DecidableEq ε] [DecidableEq α] : DecidableEq (Except ε α) :=
  fun a b =>
    match a, b with
    | .ok x, .ok y =>
      if h : x = y then .isTrue (by rw [h]) else .isFalse (fun hc => h (by injection hc))
    | .error x, .error y =>
      if h : x = y then .isTrue (by rw [h]) else .isFalse (fun hc => h (by injection hc))
    | .ok _, .error _ => .isFalse (fun hc => by injection hc)
    | .error _, .ok _ => .isFalse (fun hc => by injection hc)

/-- Conditions list of the `WHERE` clause built by `filterMenuItems`:
`category IN (…)` when `categories` is non-empty, `name LIKE '%searchText%'`
when `searchText.trim() !== ''`. -/
def filterConditions (categories : List String) (searchText : String) :
    List (MenuItem → Bool) :=
  (if categories.length > 0 then [catCond categories] else []) ++
  (if !isBlank searchText then [likeCond searchText] else [])

/-- Shallow embedding of `filterMenuItems` (src/unnamed/part_005 lines
250–303): the query is built from the list of conditions joined by `AND`
(no conditions selects every row), and the selected rows are returned
`ORDER BY name`. -/
def filterMenuItems (store : List MenuItem) (categories : List String)
    (searchText : String) : List MenuItem :=
  List.insertionSort nameLe
    (store.filter (fun it => (filterConditions categories searchText).all (fun cond => cond it)))

/-- Shallow embedding of the in-memory fallback scan of the Home screen's
filtering effect (src/unnamed/part_004 lines 243–262): filter by search text
(JavaScript truthiness: any non-empty string), matching the lowercased search
text against lowercased `name` *or* `description`, then filter by categories
unless the selection is empty or contains `"All"` (a falsy — `null` or empty —
category never matches). -/
def inMemoryFilter (menuItems : List MenuItem) (selectedCategories : List String)
    (searchText : String) : List MenuItem :=
  let afterSearch :=
    if searchText ≠ "" then
      menuItems.filter (fun it =>
        containsCI searchText.data ((it.name.getD "").data) ||
        containsCI searchText.data ((it.description.getD "").data))
    else menuItems
  if selectedCategories.length > 0 && !(selectedCategories.contains "All") then
    afterSearch.filter (fun it =>
      match it.category with
      | some c => (c ≠ "" : Bool) && selectedCategories.contains c
      | none => false)
  else afterSearch

/-- Store-side path of the same filtering effect (src/unnamed/part_004 lines
232–239): it calls `filterMenuItems` with the selected categories, mapping a
selection containing the `"All"` pseudo-category to the empty list. -/
def sqlFilterPath (menuItems : List MenuItem) (selectedCategories : List String)
    (searchText : String) : List MenuItem :=
  filterMenuItems menuItems
    (if selectedCategories.contains "All" then [] else selectedCategories)
    searchText

/-- Matching predicate written from the specification's words (spec §4.1
`filter`): category membership, skipped if `categories` is empty, AND a
case-insensitive substring match of `searchText` against `name`, skipped when
`searchText` is blank. -/
def specMatches (categories : List String) (searchText : String) (it : MenuItem) : Bool :=
  (categories.isEmpty ||
    (match it.category with
     | some c => categories.contains c
     | none => false)) &&
  (isBlank searchText ||
    (match it.name with
     | some n => containsCI searchText.data n.data
     | none => false))

/-- Errors that escape `fetchMenuDataFromAPI`: `NetworkError` (non-success
HTTP status, carrying the status) and `DataFormatError` (malformed JSON or a
payload without a `menu` array). -/
inductive LoadError where
  | network : Nat → LoadError
  | badData : LoadError
deriving DecidableEq

/-- Remote response as observed by `fetchMenuDataFromAPI`: the HTTP status
and the parse outcome of the body — `none` when `response.json()` fails,
`some none` when the parsed document is null or lacks the `menu` array,
`some (some raw)` when a `menu` array is present. -/
structure HttpResponse where
  status : Nat
  body : Option (Option (List RawItem))

/-- `response.ok` of the Fetch API: status in the range 200–299. -/
def responseOk (resp : HttpResponse) : Bool :=
  200 ≤ resp.status && resp.status < 300

/-- Absolute image URL base used by the normalization step. -/
def imageBase : String :=
  "https://github.com/Meta-Mobile-Developer-PC/Working-With-Data-API/blob/main/images/"

/-- Normalization of one raw record (src/unnamed/part_004 lines 152–160):
spread the record, overwrite `id` with the 1-based position `index + 1`,
rewrite a truthy (non-empty) image filename to an absolute URL (falsy maps to
`null`), and default a falsy `category` to `"Other"`. -/
def processRaw (index : Nat) (item : RawItem) : MenuItem :=
  { id := (index : Int) + 1
    name := item.name
    description := item.description
    price := item.price
    image :=
      match item.image with
      | some s => if s ≠ "" then some (imageBase ++ s ++ "?raw=true") else none
      | none => none
    category :=
      some (match item.category with
            | some c => if c ≠ "" then c else "Other"
            | none => "Other") }

/-- Normalization of the whole `menu` array (`data.menu.map((item, index) => …)`). -/
def processMenuItems (menu : List RawItem) : List MenuItem :=
  menu.enum.map (fun p => processRaw p.1 p.2)

/-- Shallow embedding of `fetchMenuDataFromAPI` (src/unnamed/part_004 lines
135–191).  A non-success status throws before anything touches the store; a
body that fails to parse or lacks `menu` likewise throws.  On a `menu` payload
the items are normalized, `saveMenuItems` is attempted inside its own
`try`/`catch` whose failure is swallowed, and the function returns the
normalized items.  The second component is the persisted store afterwards. -/
def fetchMenuDataFromAPI (store : List MenuItem) (resp : HttpResponse)
    (faults : Nat → Bool) (txnFault : Bool) :
    Except LoadError (List MenuItem) × List MenuItem :=
  if !responseOk resp then (.error (.network resp.status), store)
  else
    match resp.body with
    | none => (.error .badData, store)
    | some none => (.error .badData, store)
    | some (some raw) =>
      let processed := processMenuItems raw
      let sres := saveMenuItems faults txnFault store processed
      (.ok processed, sres.store)

/-- Failure oracle for the storage reads of `initializeAndLoadData`: whether
`initDatabase`, `hasMenuData`, `getMenuItems` and `getCategories` reject. -/
structure DbOracle where
  initFail : Bool
  hasDataFail : Bool
  getItemsFail : Bool
  getCatsFail : Bool

/-- Outcome of one `initializeAndLoadData` pass: the menu list the screen ends
up with (`none` when the error state is set instead), whether the remote
source was consulted, and the persisted store afterwards. -/
structure LoadOutcome where
  result : Option (List MenuItem)
  fetchInvoked : Bool
  store : List MenuItem
deriving DecidableEq

/-- Remote-fetch attempt as invoked from `initializeAndLoadData`: a thrown
error is caught by the outer catch, which sets the error state. -/
def apiAttempt (store : List MenuItem) (resp : HttpResponse)
    (faults : Nat → Bool) (txnFault : Bool) : LoadOutcome :=
  let r := fetchMenuDataFromAPI store resp faults txnFault
  match r.1 with
  | .ok items => { result := some items, fetchInvoked := true, store := r.2 }
  | .error _ => { result := none, fetchInvoked := true, store := r.2 }

/-- Shallow embedding of `initializeAndLoadData` (src/unnamed/part_004 lines
77–132): initialize the database, check `hasMenuData` (`COUNT(*) > 0`), read
all items, and serve them when non-empty — also reading the categories; any
rejection of these storage calls is caught and falls back to
`fetchMenuDataFromAPI`, as does an empty store. -/
def initializeAndLoadData (store : List MenuItem) (ora : DbOracle)
    (resp : HttpResponse) (faults : Nat → Bool) (txnFault : Bool) : LoadOutcome :=
  if ora.initFail then apiAttempt store resp faults txnFault
  else if ora.hasDataFail then apiAttempt store resp faults txnFault
  else if store.length > 0 then
    if ora.getItemsFail then apiAttempt store resp faults txnFault
    else
      let items := getMenuItems store
      if items.length > 0 then
        if ora.getCatsFail then apiAttempt store resp faults txnFault
        else { result := some items, fetchInvoked := false, store := store }
      else apiAttempt store resp faults txnFault
  else apiAttempt store resp faults txnFault

/-- Oracle under which every storage read succeeds. -/
def dbOk : DbOracle :=
  ⟨false, false, false, false⟩

/-- Modelled from the spec: the Input Debouncer (`utils/debounce`, imported by
the Home screens but not included in the repository snapshot).  Spec §4.5:
trailing-edge debounce — each call schedules the wrapped callback `d`
milliseconds later with that call's arguments, and a call arriving within `d`
of the previous one cancels the previous pending timer.  `debounceFires d
calls` returns, for a time-ordered list of invocations `(time, argument)`,
the list of executions of the wrapped callback as `(time, argument)` pairs. -/
def debounceFires {α : Type} (d : Nat) : List (Nat × α) → List (Nat × α)
  | [] => []
  | [(t, a)] => [(t + d, a)]
  | (t, a) :: (t2, a2) :: rest =>
    if t2 < t + d then debounceFires d ((t2, a2) :: rest)
    else (t + d, a) :: debounceFires d ((t2, a2) :: rest)

/-- Validity of a batch of catalog items, from the spec's data model: ids are
unique within the batch, and the `NOT NULL` columns `name` and `price` are
present. -/
def ValidItems (l : List MenuItem) : Prop :=
  (l.map (fun it => it.id)).Nodup ∧ ∀ it ∈ l, it.name ≠ none ∧ it.price ≠ none

instance (l : List MenuItem) : Decidable (ValidItems l) :=
  inferInstanceAs (Decidable
    ((l.map (fun it : MenuItem => it.id)).Nodup ∧
      ∀ it ∈ l, it.name ≠ none ∧ it.price ≠ none))

/-! Concrete items used by the closed counterexample and witness theorems. -/

/-- Concrete valid item. -/
def greekSalad : MenuItem :=
  ⟨1, some "Greek Salad", some "Crispy lettuce, peppers, olives", some 12, none, some "Starters"⟩

/-- Concrete valid item. -/
def lemonCake : MenuItem :=
  ⟨2, some "Lemon Cake", some "Traditional homemade cake", some 5, none, some "Desserts"⟩

/-- Concrete valid item whose description — but not its name — mentions cake. -/
def bruschetta : MenuItem :=
  ⟨3, some "Bruschetta", some "Toasted bread with cake crumbs", some 7, none, some "Starters"⟩

/-- Concrete raw record carrying its own (unique) upstream id. -/
def rawWithId : RawItem :=
  ⟨some 10, some "Hummus", some "Chickpea dip", some 5, none, some "Starters"⟩

/-! Helper lemmas about `LIKE` patterns and substring matching. -/

theorem anySuffix_congr {f g : List Char → Bool} (h : ∀ t, f t = g t) :
    ∀ s, anySuffix f s = anySuffix g s
  | [] => h []
  | c :: t => by simp only [anySuffix, h (c :: t), anySuffix_congr h t]

theorem likeMatch_percent_only : ∀ s : List Char, likeMatch ['%'] s = true
  | [] => rfl
  | c :: t => by
    simpa [likeMatch, anySuffix] using likeMatch_percent_only t

/-- A wildcard-free pattern followed by a trailing `%` matches exactly the
strings it is a case-insensitive prefix of. -/
theorem likeMatch_append_percent (p : List Char)
    (hp : ∀ c ∈ p, c ≠ '%' ∧ c ≠ '_') :
    ∀ s, likeMatch (p ++ ['%']) s = isPrefixCI p s := by
  induction p with
  | nil =>
    intro s
    simpa [isPrefixCI] using likeMatch_percent_only s
  | cons a p ih =>
    intro s
    have ha := hp a (by simp)
    have hp' : ∀ c ∈ p, c ≠ '%' ∧ c ≠ '_' := fun c hc => hp c (by simp [hc])
    have hu : (a == '_') = false := beq_eq_false_iff_ne.mpr ha.2
    cases s with
    | nil => simp [likeMatch, isPrefixCI, ha.1]
    | cons c t =>
      simp only [List.cons_append, likeMatch, if_neg ha.1, isPrefixCI, hu,
        Bool.false_or]
      exact congrArg (fun b => (lowerAscii a == lowerAscii c) && b) (ih hp' t)

/-- For a wildcard-free `searchText`, the pattern `%searchText%` matches
exactly the strings containing `searchText` case-insensitively. -/
theorem likeMatch_pattern_eq_containsCI (p : List Char)
    (hp : ∀ c ∈ p, c ≠ '%' ∧ c ≠ '_') (s : List Char) :
    likeMatch ('%' :: (p ++ ['%'])) s = containsCI p s := by
  have h1 : likeMatch ('%' :: (p ++ ['%'])) s = anySuffix (likeMatch (p ++ ['%'])) s := by
    simp [likeMatch]
  rw [h1, containsCI]
  exact anySuffix_congr (likeMatch_append_percent p hp) s

/-! Helper lemmas about `saveMenuItems`. -/

/-- One fault-free, constraint-satisfying statement steps the transaction. -/
theorem runStmts_cons_ok (k : Nat) (tbl tbl' : List MenuItem) (st : Stmt)
    (rest : List Stmt) (hst : execStmt tbl st = some tbl') :
    runStmts noFaults k tbl (st :: rest) = runStmts noFaults (k + 1) tbl' rest := by
  simp [runStmts, noFaults, hst]

/-- Inserting a batch of valid items whose ids do not collide with the current
table appends them all, with no statement error. -/
theorem runStmts_insertAll : ∀ (A : List MenuItem) (k : Nat) (tbl : List MenuItem),
    (A.map (fun it => it.id)).Nodup →
    (∀ it ∈ A, it.name ≠ none ∧ it.price ≠ none) →
    (∀ it ∈ A, ∀ r ∈ tbl, r.id ≠ it.id) →
    runStmts noFaults k tbl (A.map Stmt.ins) = (tbl ++ A, false)
  | [], _, tbl, _, _, _ => by simp [runStmts]
  | a :: A, k, tbl, hnd, hnn, hdisj => by
    have hnd0 : (a.id :: A.map (fun it => it.id)).Nodup := by simpa using hnd
    have hnd1 := List.nodup_cons.mp hnd0
    have hname : (a.name == none) = false :=
      beq_eq_false_iff_ne.mpr (hnn a (by simp)).1
    have hprice : (a.price == none) = false :=
      beq_eq_false_iff_ne.mpr (hnn a (by simp)).2
    have hany : tbl.any (fun r => r.id == a.id) = false := by
      rw [List.any_eq_false]
      intro r hr
      simpa using hdisj a (by simp) r hr
    have hexec : execStmt tbl (Stmt.ins a) = some (tbl ++ [a]) := by
      simp [execStmt, hname, hprice, hany]
    have hdisj' : ∀ it ∈ A, ∀ r ∈ tbl ++ [a], r.id ≠ it.id := by
      intro it hit r hr
      rcases List.mem_append.mp hr with hr | hr
      · exact hdisj it (by simp [hit]) r hr
      · have hra : r = a := by simpa using hr
        rw [hra]
        intro hcontr
        apply hnd1.1
        rw [hcontr]
        exact List.mem_map_of_mem _ hit
    have hrest := runStmts_insertAll A (k + 1) (tbl ++ [a]) hnd1.2
      (fun it hit => hnn it (by simp [hit])) hdisj'
    rw [List.map_cons, runStmts_cons_ok k tbl (tbl ++ [a]) _ _ hexec, hrest]
    simp [List.append_assoc]

/-- With no storage fault, `saveMenuItems` of a valid batch resolves and
leaves exactly that batch in the table. -/
theorem saveMenuItems_ok (store A : List MenuItem) (hA : ValidItems A) :
    saveMenuItems noFaults false store A = ⟨true, A⟩ := by
  have hdel : execStmt store Stmt.del = some [] := rfl
  have h := runStmts_insertAll A 1 [] hA.1 hA.2 (by simp)
  simp [saveMenuItems, runStmts_cons_ok 0 store [] _ _ hdel, h]

/-- The source's `name LIKE '%searchText%'` condition agrees with the spec's
case-insensitive substring match on `name` whenever `searchText` contains no
`LIKE` wildcard. -/
theorem likeCond_eq_spec (searchText : String)
    (hw : ∀ c ∈ searchText.data, c ≠ '%' ∧ c ≠ '_') (it : MenuItem) :
    likeCond searchText it =
      (match it.name with
       | some n => containsCI searchText.data n.data
       | none => false) := by
  unfold likeCond
  cases it.name with
  | none => rfl
  | some n => exact likeMatch_pattern_eq_containsCI searchText.data hw n.data

/-- The conjunction of the conditions built by `filterMenuItems` agrees,
row by row, with the spec's matching predicate whenever the search text
contains no `LIKE` wildcard. -/
theorem filterConditions_all_eq_specMatches (categories : List String)
    (searchText : String) (hw : ∀ c ∈ searchText.data, c ≠ '%' ∧ c ≠ '_')
    (it : MenuItem) :
    (filterConditions categories searchText).all (fun cond => cond it) =
      specMatches categories searchText it := by
  unfold filterConditions specMatches
  by_cases hcat : categories = []
  · subst hcat
    by_cases hb : isBlank searchText = true
    · simp [hb]
    · have hb' : isBlank searchText = false := by simpa using hb
      simp [hb', likeCond_eq_spec searchText hw it]
  · have hlen : categories.length > 0 := List.length_pos.mpr hcat
    have hne : categories.isEmpty = false := by
      cases categories with
      | nil => exact absurd rfl hcat
      | cons a l => rfl
    by_cases hb : isBlank searchText = true
    · simp [hb, hlen, hne, catCond]
    · have hb' : isBlank searchText = false := by simpa using hb
      simp [hb', hlen, hne, catCond, likeCond_eq_spec searchText hw it]

/-- The source's `category IN (…)` condition agrees with the fallback scan's
category check whenever the selection does not contain the empty string
(JavaScript treats an empty-string category as falsy and rejects the row). -/
theorem catCond_eq_memCat (selected : List String) (hns : "" ∉ selected)
    (it : MenuItem) :
    catCond selected it =
      (match it.category with
       | some c => (c ≠ "" : Bool) && selected.contains c
       | none => false) := by
  unfold catCond
  cases it.category with
  | none => rfl
  | some c =>
    by_cases hc : c ∈ selected
    · have hcc : selected.contains c = true := by simpa using hc
      have hcne : c ≠ "" := fun h => hns (h ▸ hc)
      simp [hcc, hcne]
    · have hcc : selected.contains c = false := by simpa using hc
      show selected.contains c = ((c ≠ "" : Bool) && selected.contains c)
      rw [hcc]
      simp

/-! Claim theorems. -/

/-- C1: evaluation of the embedded `saveMenuItems` at a failing input.  With a
prior store `[greekSalad]` and batch `[lemonCake, bruschetta]`, a fault on
statement 1 (the first `INSERT`) makes the promise reject — yet, because every
statement error callback returns `false`, the WebSQL transaction continues and
commits: the final store is `[bruschetta]`, which is neither the prior content
nor the full batch, contradicting the claimed all-or-none/prior-content-intact
behavior. -/
theorem saveMenuItems_not_atomic :
    (saveMenuItems (fun k => k == 1) false [greekSalad] [lemonCake, bruschetta]).resolved
      = false ∧
    (saveMenuItems (fun k => k == 1) false [greekSalad] [lemonCake, bruschetta]).store
      = [bruschetta] ∧
    ([bruschetta] : List MenuItem) ≠ [greekSalad] ∧
    lemonCake ∉ ([bruschetta] : List MenuItem) := by
  decide

/-- C2: with a populated store and no storage failure, `initializeAndLoadData`
never consults the remote source and terminates successfully with exactly the
stored items, whatever the remote endpoint would have answered. -/
theorem initializeAndLoadData_cacheHit (store : List MenuItem)
    (resp : HttpResponse) (faults : Nat → Bool) (txnFault : Bool)
    (h : store ≠ []) :
    initializeAndLoadData store dbOk resp faults txnFault =
      { result := some store, fetchInvoked := false, store := store } := by
  have hl : store.length > 0 := List.length_pos.mpr h
  unfold initializeAndLoadData
  simp [dbOk, hl, getMenuItems]

/-- C2 witness. -/
theorem initializeAndLoadData_cacheHit_witness :
    initializeAndLoadData [greekSalad] dbOk ⟨500, none⟩ noFaults false =
      { result := some [greekSalad], fetchInvoked := false, store := [greekSalad] } :=
  initializeAndLoadData_cacheHit [greekSalad] ⟨500, none⟩ noFaults false (by decide)

/-- C3: for valid batches `A` and `B`, `saveMenuItems A` followed by
`getMenuItems` returns a set equal to `A`, and `saveMenuItems A` followed by
`saveMenuItems B` leaves the store containing exactly `B`. -/
theorem save_roundtrip_replace (store A B : List MenuItem)
    (hA : ValidItems A) (hB : ValidItems B) :
    (getMenuItems (saveMenuItems noFaults false store A).store).Perm A ∧
    (saveMenuItems noFaults false
        (saveMenuItems noFaults false store A).store B).store = B := by
  rw [saveMenuItems_ok store A hA]
  rw [show (⟨true, A⟩ : SaveResult).store = A from rfl]
  rw [saveMenuItems_ok A B hB]
  exact ⟨List.Perm.refl A, rfl⟩

/-- C3 witness. -/
theorem save_roundtrip_replace_witness :
    ValidItems [greekSalad, lemonCake] ∧ ValidItems [bruschetta] ∧
    ((getMenuItems (saveMenuItems noFaults false [] [greekSalad, lemonCake]).store).Perm
        [greekSalad, lemonCake] ∧
      (saveMenuItems noFaults false
          (saveMenuItems noFaults false [] [greekSalad, lemonCake]).store
          [bruschetta]).store = [bruschetta]) :=
  ⟨by decide, by decide,
    save_roundtrip_replace [] [greekSalad, lemonCake] [bruschetta] (by decide) (by decide)⟩

/-- C4 counterexample: over the same data, the store-side filter and the
in-memory fallback scan disagree — the SQL path matches the search text
against `name` only, the fallback against `name` or `description`.  For the
criteria (no categories, search `"cake"`) and the single item `bruschetta`
(whose description, but not name, contains `"cake"`) the SQL path returns
nothing while the fallback returns the item. -/
theorem query_paths_differ :
    sqlFilterPath [bruschetta] [] "cake" = [] ∧
    inMemoryFilter [bruschetta] [] "cake" = [bruschetta] ∧
    bruschetta ∉ sqlFilterPath [bruschetta] [] "cake" ∧
    bruschetta ∈ inMemoryFilter [bruschetta] [] "cake" := by
  decide

/-- C4 (amended): the two paths apply the same category predicate and return
the same set of items whenever the search text is empty (the search
predicates differ: `name` only with `LIKE` semantics on the store side,
`name` or `description` substring in the fallback), provided the selection
does not contain the empty string. -/
theorem query_paths_agree_empty_search (menuItems : List MenuItem)
    (selectedCategories : List String) (hns : "" ∉ selectedCategories) :
    (sqlFilterPath menuItems selectedCategories "").Perm
      (inMemoryFilter menuItems selectedCategories "") := by
  have hblank : isBlank "" = true := rfl
  by_cases hall : selectedCategories.contains "All"
  · have hallm : "All" ∈ selectedCategories := by simpa using hall
    have hsql : sqlFilterPath menuItems selectedCategories "" =
        List.insertionSort nameLe menuItems := by
      unfold sqlFilterPath filterMenuItems filterConditions
      simp [hall, hallm, hblank]
    have hmem : inMemoryFilter menuItems selectedCategories "" = menuItems := by
      simp only [inMemoryFilter]
      rw [if_neg (show ¬("" ≠ "") from fun h => h rfl)]
      simp [hall, hallm]
    rw [hsql, hmem]
    exact List.perm_insertionSort nameLe menuItems
  · have hallm : "All" ∉ selectedCategories := by simpa using hall
    have hallf : selectedCategories.contains "All" = false := by simpa using hall
    by_cases hsel : selectedCategories = []
    · subst hsel
      have hsql : sqlFilterPath menuItems [] "" =
          List.insertionSort nameLe menuItems := by
        unfold sqlFilterPath filterMenuItems filterConditions
        simp [hblank]
      have hmem : inMemoryFilter menuItems [] "" = menuItems := by
        simp only [inMemoryFilter]
        rw [if_neg (show ¬("" ≠ "") from fun h => h rfl)]
        simp
      rw [hsql, hmem]
      exact List.perm_insertionSort nameLe menuItems
    · have hlen : selectedCategories.length > 0 := List.length_pos.mpr hsel
      have hsql : sqlFilterPath menuItems selectedCategories "" =
          List.insertionSort nameLe
            (menuItems.filter (fun it => catCond selectedCategories it)) := by
        unfold sqlFilterPath filterMenuItems filterConditions
        simp [hallm, hallf, hlen, hblank]
      have hcond : (decide (selectedCategories.length > 0) &&
          !selectedCategories.contains "All") = true := by
        rw [hallf, decide_eq_true hlen]
        rfl
      have hmem : inMemoryFilter menuItems selectedCategories "" =
          menuItems.filter (fun it =>
            match it.category with
            | some c => (c ≠ "" : Bool) && selectedCategories.contains c
            | none => false) := by
        simp only [inMemoryFilter]
        rw [if_neg (show ¬("" ≠ "") from fun h => h rfl), if_pos hcond]
      rw [hsql, hmem]
      have heq := List.filter_congr
        (fun it (_ : it ∈ menuItems) => catCond_eq_memCat selectedCategories hns it)
      rw [← heq]
      exact List.perm_insertionSort nameLe _

/-- C4 amended-claim witness. -/
theorem query_paths_agree_empty_search_witness :
    ("" ∉ ["Starters"]) ∧
    (sqlFilterPath [greekSalad, lemonCake, bruschetta] ["Starters"] "").Perm
      (inMemoryFilter [greekSalad, lemonCake, bruschetta] ["Starters"] "") :=
  ⟨by decide,
    query_paths_agree_empty_search [greekSalad, lemonCake, bruschetta] ["Starters"]
      (by decide)⟩

/-- C5: if the remote fetch succeeds with a `menu` payload but
`saveMenuItems` rejects, `fetchMenuDataFromAPI` still returns the normalized
remote items — the save failure is absorbed. -/
theorem fetch_absorbs_save_failure (store : List MenuItem) (status : Nat)
    (raw : List RawItem) (faults : Nat → Bool) (txnFault : Bool)
    (hok : responseOk ⟨status, some (some raw)⟩ = true)
    (hfail : (saveMenuItems faults txnFault store (processMenuItems raw)).resolved
      = false) :
    (fetchMenuDataFromAPI store ⟨status, some (some raw)⟩ faults txnFault).1 =
      Except.ok (processMenuItems raw) := by
  unfold fetchMenuDataFromAPI
  rw [hok]
  rfl

/-- C5 witness: a transaction-level storage fault fails the save, yet the
fetched items are returned. -/
theorem fetch_absorbs_save_failure_witness :
    responseOk ⟨200, some (some [rawWithId])⟩ = true ∧
    (saveMenuItems noFaults true [greekSalad] (processMenuItems [rawWithId])).resolved
      = false ∧
    (fetchMenuDataFromAPI [greekSalad] ⟨200, some (some [rawWithId])⟩ noFaults true).1 =
      Except.ok (processMenuItems [rawWithId]) :=
  ⟨by decide, by decide,
    fetch_absorbs_save_failure [greekSalad] 200 [rawWithId] noFaults true
      (by decide) (by decide)⟩

/-- C6: on a non-success HTTP status, `fetchMenuDataFromAPI` throws the
network error carrying that status and the persisted store is left
unmodified — `saveMenuItems` is never invoked on that path. -/
theorem fetch_http_error_propagates (store : List MenuItem)
    (resp : HttpResponse) (faults : Nat → Bool) (txnFault : Bool)
    (h : responseOk resp = false) :
    fetchMenuDataFromAPI store resp faults txnFault =
      (Except.error (LoadError.network resp.status), store) := by
  unfold fetchMenuDataFromAPI
  rw [h]
  rfl

/-- C6 witness: HTTP 500 with a perfectly good body still rejects and leaves
the store untouched. -/
theorem fetch_http_error_propagates_witness :
    responseOk ⟨500, some (some [rawWithId])⟩ = false ∧
    fetchMenuDataFromAPI [greekSalad] ⟨500, some (some [rawWithId])⟩ noFaults false =
      (Except.error (LoadError.network 500), [greekSalad]) :=
  ⟨by decide,
    fetch_http_error_propagates [greekSalad] ⟨500, some (some [rawWithId])⟩
      noFaults false (by decide)⟩

/-- Positional ids produced by normalization, generalized over the starting
index. -/
theorem processRaw_ids_aux : ∀ (l : List RawItem) (k : Nat),
    (List.enumFrom k l).map (fun p => (processRaw p.1 p.2).id) =
      (List.range' k l.length).map (fun i : Nat => (i : Int) + 1)
  | [], _ => rfl
  | r :: l, k => by
    simp only [List.enumFrom, List.length_cons, List.range'_succ, List.map_cons]
    exact congrArg (fun t => ((k : Int) + 1) :: t) (processRaw_ids_aux l (k + 1))

/-- C8 (amended): normalization assigns every item's id as its 1-based
position in the `menu` array, unconditionally — upstream ids are discarded —
and the resulting ids are unique within the batch. -/
theorem processMenuItems_positional_ids (menu : List RawItem) :
    (processMenuItems menu).map (fun it => it.id) =
      (List.range menu.length).map (fun i : Nat => (i : Int) + 1) ∧
    ((processMenuItems menu).map (fun it => it.id)).Nodup := by
  have h : (processMenuItems menu).map (fun it => it.id) =
      (List.range menu.length).map (fun i : Nat => (i : Int) + 1) := by
    unfold processMenuItems
    rw [List.map_map, List.range_eq_range']
    exact processRaw_ids_aux menu 0
  refine ⟨h, ?_⟩
  rw [h]
  have hinj : Function.Injective (fun i : Nat => (i : Int) + 1) := by
    intro i j hij
    simpa using hij
  exact List.Nodup.map hinj (List.nodup_range menu.length)

/-- C8 counterexample: a payload whose single record carries the unique
upstream id 10 is nevertheless assigned id 1 (its 1-based position); the
upstream id is not taken over even though it was already unique. -/
theorem processMenuItems_ignores_upstream_ids :
    ([rawWithId].map (fun r => r.id)).Nodup ∧
    rawWithId.id = some 10 ∧
    (processMenuItems [rawWithId]).map (fun it => it.id) = [1] ∧
    (1 : Int) ≠ 10 := by
  decide

/-- C9 (modelled from the spec, the debounce source file being absent from
the snapshot): for any non-empty burst of calls in which every call arrives
within `d` of the previous one, the wrapped callback executes exactly once,
`d` after the last call, with the last call's arguments. -/
theorem debounce_burst {α : Type} (d : Nat) :
    ∀ (calls : List (Nat × α)) (h : calls ≠ []),
      List.Chain' (fun p q => p.1 ≤ q.1 ∧ q.1 < p.1 + d) calls →
      debounceFires d calls = [((calls.getLast h).1 + d, (calls.getLast h).2)]
  | [], h, _ => absurd rfl h
  | [(t, a)], _, _ => by simp [debounceFires]
  | (t, a) :: (t2, a2) :: rest, _, hchain => by
    obtain ⟨⟨hle, hlt⟩, htail⟩ := List.chain'_cons.mp hchain
    have hne : ((t2, a2) :: rest : List (Nat × α)) ≠ [] := by simp
    rw [show debounceFires d ((t, a) :: (t2, a2) :: rest) =
        (if t2 < t + d then debounceFires d ((t2, a2) :: rest)
         else (t + d, a) :: debounceFires d ((t2, a2) :: rest)) from rfl]
    rw [if_pos hlt, debounce_burst d ((t2, a2) :: rest) hne htail]
    rw [List.getLast_cons hne]

/-- C9 witness: three calls at t = 0, 100, 150 ms with delay 500 ms trigger
the wrapped callback once, at t = 650 ms, with the t = 150 arguments. -/
theorem debounce_burst_witness :
    debounceFires 500 [((0 : Nat), "a"), (100, "b"), (150, "c")] = [(650, "c")] :=
  debounce_burst 500 [((0 : Nat), "a"), (100, "b"), (150, "c")] (by simp)
    (by simp [List.chain'_cons, List.chain'_singleton])

/-- C10: the `%` and `_` characters of the search text are interpreted as SQL
`LIKE` wildcards, not literal text: for the store `[greekSalad]` and the
non-blank search text `"G%k"` (which contains `%`), `filterMenuItems` returns
`greekSalad` although its name does not contain `"G%k"` as a literal
substring, not even case-insensitively. -/
theorem filterMenuItems_like_wildcards :
    isBlank "G%k" = false ∧
    '%' ∈ "G%k".data ∧
    greekSalad ∈ filterMenuItems [greekSalad] [] "G%k" ∧
    containsCI "G%k".data "Greek Salad".data = false ∧
    greekSalad.name = some "Greek Salad" := by
  decide

/-- C7 counterexample: with the `_` wildcard in the search text, `filter`
returns an item whose name does not contain the search text as a substring —
so the result is not the set selected by the claimed case-insensitive
substring predicate. -/
theorem filterMenuItems_substring_cex :
    isBlank "L_mon" = false ∧
    lemonCake ∈ filterMenuItems [lemonCake] [] "L_mon" ∧
    specMatches [] "L_mon" lemonCake = false := by
  decide

/-- C7 (amended): when the search text contains no `LIKE` wildcard,
`filterMenuItems` returns exactly the persisted items satisfying category
membership (skipped for an empty category list) AND the case-insensitive
substring match of the search text against `name` (skipped when the search
text is blank), ordered by `name` ascending. -/
theorem filterMenuItems_correct (store : List MenuItem) (categories : List String)
    (searchText : String)
    (hw : ∀ c ∈ searchText.data, c ≠ '%' ∧ c ≠ '_') :
    (filterMenuItems store categories searchText).Perm
      (store.filter (specMatches categories searchText)) ∧
    List.Sorted nameLe (filterMenuItems store categories searchText) := by
  constructor
  · unfold filterMenuItems
    have heq : store.filter (fun it =>
        (filterConditions categories searchText).all (fun cond => cond it)) =
        store.filter (specMatches categories searchText) :=
      List.filter_congr
        (fun it _ => filterConditions_all_eq_specMatches categories searchText hw it)
    rw [← heq]
    exact List.perm_insertionSort nameLe _
  · exact List.sorted_insertionSort nameLe _

/-- C7 witness. -/
theorem filterMenuItems_correct_witness :
    (∀ c ∈ "cake".data, c ≠ '%' ∧ c ≠ '_') ∧
    ((filterMenuItems [greekSalad, lemonCake, bruschetta] [] "cake").Perm
        (List.filter (specMatches [] "cake") [greekSalad, lemonCake, bruschetta]) ∧
      List.Sorted nameLe (filterMenuItems [greekSalad, lemonCake, bruschetta] [] "cake")) :=
  ⟨by decide,
    filterMenuItems_correct [greekSalad, lemonCake, bruschetta] [] "cake" (by decide)⟩

end LittleLemon
